import Mathlib

/-!
Verification of the rockinematics failure-evaluation engine (evaluate.py).

The core consists of two containment predicates, line_in_cone and
line_above_plane, and three failure classifiers, planarFailure,
wedgeFailure, and topplingFailure.  Numeric values (angles in degrees) are
modelled as rationals.  The external Geometry Primitives (mplstereonet) and
the Envelope Provider (envelopes.py, not part of the evaluated sources) are
collected in a structure Geom over which the theorems quantify; concrete
instances are supplied for witnesses.  Classifiers return
Except String (List Bool): the error branch models the numpy exceptions
(IndexError on out-of-range indexing, ValueError on mismatched shapes)
which the decision code can raise on ill-formed input.
-/

set_option autoImplicit false

namespace Rockinematics

/-- Modelled from the spec: the external Geometry Primitives and Envelope
Provider (mplstereonet and envelopes, absent from the evaluated sources).
Field angular_distance_deg is the composite np.degrees of
st.angular_distance on two plunge/bearing lines, an angle in degrees;
pole2plunge_bearing maps a plane (strike, dip) to its pole (plunge,
bearing); azimuth2rake projects a bearing onto a plane as a rake angle;
rake_to_line is the composite st.rake followed by
st.geographic2plunge_bearing, mapping a rake on a plane back to a
(plunge, bearing) line; plane_intersection is the intersection line of two
planes, none when the planes are parallel (the NaN output of the numpy
primitive).  The envelope functions return cone parameters
(plunge, bearing, angle) or plane parameters (strike, dip); where the
Python versions are array-valued over friction they act elementwise, so
they are modelled on scalars and mapped.  Per the spec, the toppling
friction envelope shares one strike across joints (a function of the slope
only) while its dip varies with the per-joint friction angle. -/
structure Geom where
  angular_distance_deg : ℚ → ℚ → ℚ → ℚ → ℚ
  pole2plunge_bearing : ℚ → ℚ → ℚ × ℚ
  azimuth2rake : ℚ → ℚ → ℚ → ℚ
  rake_to_line : ℚ → ℚ → ℚ → ℚ × ℚ
  plane_intersection : ℚ → ℚ → ℚ → ℚ → Option (ℚ × ℚ)
  planar_daylight : ℚ → ℚ → ℚ × ℚ × ℚ
  planar_friction : ℚ → ℚ × ℚ × ℚ
  wedge_daylight : ℚ → ℚ → ℚ × ℚ
  wedge_friction : ℚ → ℚ × ℚ × ℚ
  toppling_slipLimits : ℚ → ℚ → ℚ × ℚ × ℚ
  toppling_friction_strike : ℚ → ℚ → ℚ
  toppling_friction_dip : ℚ → ℚ → ℚ → ℚ

/-- line_in_cone from evaluate.py: the line (lplunge, lbearing) is inside
the cone with center line (cplunge, cbearing) and half-angle cangle iff
the angular distance between the center line and the line is strictly less
than the cone angle. -/
def line_in_cone (G : Geom) (cplunge cbearing cangle lplunge lbearing : ℚ) : Bool :=
  decide (G.angular_distance_deg cplunge cbearing lplunge lbearing < cangle)

/-- line_above_plane from evaluate.py: project the line bearing onto the
plane (strike, dip) as a rake angle, convert the rake back to a line
(rplunge, rbearing) lying on the plane, and require the projected line to
plunge more steeply than the test line and to match its bearing to within
0.001 degrees (a plain absolute difference, with no modular wraparound). -/
def line_above_plane (G : Geom) (strike dip lplunge lbearing : ℚ) : Bool :=
  let rake_angle := G.azimuth2rake strike dip lbearing
  let r := G.rake_to_line strike dip rake_angle
  decide (r.1 > lplunge) && decide (|r.2 - lbearing| < 1/1000)

/-- Friction input of a classifier: either a scalar (the except branch of
the len probe in the Python code, applied uniformly) or a sequence. -/
inductive FrictionInput where
  | scalar : ℚ → FrictionInput
  | seq : List ℚ → FrictionInput

/-- Resolution of the friction input as performed by each classifier:
a scalar is broadcast to length n (jfriction times np.ones(len(jstr)));
a sequence is used as given, with no length check against n. -/
def resolveFriction (n : ℕ) : FrictionInput → List ℚ
  | .scalar f => List.replicate n f
  | .seq l => l

/-- Well-formedness of the friction input relative to the joint count:
a scalar always, a sequence only when its length is the joint count. -/
def frictionWF (fr : FrictionInput) (n : ℕ) : Bool :=
  match fr with
  | .scalar _ => true
  | .seq l => decide (l.length = n)

/-- The per-joint loop of planarFailure: for index a it evaluates the pole
against the daylight cone pde and against the a-th planar friction cone,
combining as inDaylight AND NOT inFriction.  Walking the pole list and the
friction-envelope list together realizes the indexing by a; exhausting the
envelope list first is the IndexError raised by pfe_plunge[a] when the
supplied friction sequence is shorter than the joint count. -/
def planarLoop (G : Geom) (pde : ℚ × ℚ × ℚ) :
    List (ℚ × ℚ) → List (ℚ × ℚ × ℚ) → Except String (List Bool)
  | [], _ => .ok []
  | _ :: _, [] => .error "IndexError: index out of bounds"
  | (jp, jb) :: poles, (fp, fb, fa) :: pfe =>
    match planarLoop G pde poles pfe with
    | .error e => .error e
    | .ok rest =>
      .ok ((line_in_cone G pde.1 pde.2.1 pde.2.2 jp jb
            && ! line_in_cone G fp fb fa jp jb) :: rest)

/-- planarFailure from evaluate.py.  Joint strike/dip arrays of unequal
length are a numpy broadcast error; a scalar friction is broadcast to the
joint count; the daylight envelope comes from the slope parameters and the
friction envelopes elementwise from the friction angles; each joint plane
is converted to its pole and the per-joint loop combines the two cone
tests.  The plotting side effects of the source are not part of the
returned mask and are omitted. -/
def planarFailure (G : Geom) (sstr sdip : ℚ) (jfriction : FrictionInput)
    (jstr jdip : List ℚ) : Except String (List Bool) :=
  if jstr.length ≠ jdip.length then
    .error "ValueError: operands could not be broadcast together"
  else
    let jf := resolveFriction jstr.length jfriction
    let pde := G.planar_daylight sstr sdip
    let pfe := jf.map G.planar_friction
    let poles := List.zipWith G.pole2plunge_bearing jstr jdip
    planarLoop G pde poles pfe

/-- The per-joint loop of topplingFailure: for index a the pole must lie
outside the slip-limit cone tsl, outside the same cone with bearing offset
by +180 (the offset is not normalized into the 0..360 range), and above
the toppling friction great circle with the shared strike ts0 and the a-th
dip.  ts0 is tfe_strike[0]: none models the IndexError raised when the
strike array is empty and the loop body runs. -/
def topplingLoop (G : Geom) (tsl : ℚ × ℚ × ℚ) (ts0 : Option ℚ) :
    List (ℚ × ℚ) → List ℚ → Except String (List Bool)
  | [], _ => .ok []
  | _ :: _, [] => .error "IndexError: index out of bounds"
  | (jp, jb) :: poles, td :: tds =>
    match ts0 with
    | none => .error "IndexError: index out of bounds"
    | some ts =>
      match topplingLoop G tsl (some ts) poles tds with
      | .error e => .error e
      | .ok rest =>
        .ok ((! line_in_cone G tsl.1 tsl.2.1 tsl.2.2 jp jb
              && (! line_in_cone G tsl.1 (tsl.2.1 + 180) tsl.2.2 jp jb
              && line_above_plane G ts td jp jb)) :: rest)

/-- topplingFailure from evaluate.py.  The slip-limit cone comes from the
slope parameters; the toppling friction envelope has arrays of strikes
(constant, a function of the slope only, per the spec) and of per-joint
dips, both of the length of the friction input; the code reads the shared
strike as tfe_strike[0].  Plotting is omitted as in planarFailure. -/
def topplingFailure (G : Geom) (sstr sdip : ℚ) (jfriction : FrictionInput)
    (jstr jdip : List ℚ) : Except String (List Bool) :=
  if jstr.length ≠ jdip.length then
    .error "ValueError: operands could not be broadcast together"
  else
    let jf := resolveFriction jstr.length jfriction
    let tsl := G.toppling_slipLimits sstr sdip
    let tfe_strike := jf.map (fun _ => G.toppling_friction_strike sstr sdip)
    let tfe_dip := jf.map (G.toppling_friction_dip sstr sdip)
    let poles := List.zipWith G.pole2plunge_bearing jstr jdip
    topplingLoop G tsl tfe_strike.head? poles tfe_dip

/-- The unordered index pairs (i, j) with i < j < n, in the lexicographic
order produced by itertools.combinations(range(n), 2): i ascending, and
for each i the second components i+1, ..., n-1 ascending. -/
def pairComb (n : ℕ) : List (ℕ × ℕ) :=
  (List.range n).flatMap (fun i => (List.range' (i + 1) (n - i - 1)).map (fun j => (i, j)))

/-- The per-pair minima min(jfriction[i], jfriction[j]) over a pair list,
as computed by indexing the friction array with the pair columns; an index
out of range is the numpy IndexError. -/
def frictionPairs (jf : List ℚ) : List (ℕ × ℕ) → Except String (List ℚ)
  | [] => .ok []
  | (i, j) :: rest =>
    match jf[i]?, jf[j]? with
    | some fi, some fj =>
      match frictionPairs jf rest with
      | .error e => .error e
      | .ok fs => .ok (min fi fj :: fs)
    | _, _ => .error "IndexError: index out of bounds"

/-- The plane-intersection lines of the joint pairs; the pair indices are
always below the joint count, so the list indexing cannot miss. -/
def wedgeLines (G : Geom) (jstr jdip : List ℚ) (c : List (ℕ × ℕ)) :
    List (Option (ℚ × ℚ)) :=
  c.map (fun p => G.plane_intersection (jstr.getD p.1 0) (jdip.getD p.1 0)
    (jstr.getD p.2 0) (jdip.getD p.2 0))

/-- The per-pair verdict of wedgeFailure: the intersection line must lie on
the convex side of the wedge daylight plane and inside the wedge friction
cone.  A none intersection models the NaN line of two parallel planes:
every floating-point comparison against NaN inside both predicates is
false, so the conjunction evaluates to false. -/
def wedgePair (G : Geom) (wde : ℚ × ℚ) (li : Option (ℚ × ℚ)) (fe : ℚ × ℚ × ℚ) : Bool :=
  match li with
  | none => false
  | some (lp, lb) =>
    line_above_plane G wde.1 wde.2 lp lb && line_in_cone G fe.1 fe.2.1 fe.2.2 lp lb

/-- wedgeFailure from evaluate.py.  The pair list c comes from
itertools.combinations(range(n), 2); when it is empty (n below 2),
np.array of the empty list is one-dimensional and the column indexing
c[:, 0] raises an IndexError.  Otherwise the intersection lines, the
per-pair minimum frictions, the shared wedge daylight plane, and the
per-pair wedge friction cones are computed and each pair is evaluated.
Plotting is omitted as in planarFailure. -/
def wedgeFailure (G : Geom) (sstr sdip : ℚ) (jfriction : FrictionInput)
    (jstr jdip : List ℚ) : Except String (List Bool) :=
  if jstr.length ≠ jdip.length then
    .error "ValueError: operands could not be broadcast together"
  else
    let jf := resolveFriction jstr.length jfriction
    let c := pairComb jstr.length
    if c.isEmpty then
      .error "IndexError: too many indices for array"
    else
      let wl := wedgeLines G jstr jdip c
      match frictionPairs jf c with
      | .error e => .error e
      | .ok wf =>
        let wde := G.wedge_daylight sstr sdip
        let wfe := wf.map G.wedge_friction
        .ok (List.zipWith (wedgePair G wde) wl wfe)

/-- Whether a classifier run raised (the error branch of the Except). -/
def errored {ε α : Type} (r : Except ε α) : Bool :=
  match r with
  | .error _ => true
  | .ok _ => false

/-- The a-th entry of a classifier result: none on an error result or an
out-of-range index, some of the mask entry otherwise. -/
def maskEntry (r : Except String (List Bool)) (a : ℕ) : Option Bool :=
  match r with
  | .error _ => none
  | .ok m => m.get? a

/-- A concrete geometry instance with simple rational-valued primitives,
used to evaluate the classifiers on closed inputs. -/
def Gzero : Geom :=
  ⟨fun _ _ _ _ => 5, fun s d => (d, s), fun _ _ b => b, fun _ d r => (d, r),
   fun s1 d1 _ _ => some (d1, s1), fun s d => (d, s, 20), fun f => (90, 0, f),
   fun s d => (s, d), fun f => (90, 0, f), fun s d => (d, s, 15),
   fun s _ => s, fun _ d f => d + f⟩

/-- A concrete geometry instance whose plane_intersection is everywhere
undefined, modelling parallel joint planes (NaN intersection lines). -/
def Gdeg : Geom :=
  ⟨fun _ _ _ _ => 5, fun s d => (d, s), fun _ _ b => b, fun _ d r => (d, r),
   fun _ _ _ _ => none, fun s d => (d, s, 20), fun f => (90, 0, f),
   fun s d => (s, d), fun f => (90, 0, f), fun s d => (d, s, 15),
   fun s _ => s, fun _ d f => d + f⟩

/-- A concrete geometry instance whose rake projection lands just below the
0/360 bearing seam, used to exercise the bearing-match test of
line_above_plane across the seam. -/
def Gseam : Geom :=
  ⟨fun _ _ _ _ => 5, fun s d => (d, s), fun _ _ b => b,
   fun _ _ _ => (1, 3599996/10000),
   fun s1 d1 _ _ => some (d1, s1), fun s d => (d, s, 20), fun f => (90, 0, f),
   fun s d => (s, d), fun f => (90, 0, f), fun s d => (d, s, 15),
   fun s _ => s, fun _ d f => d + f⟩

/-- A getD of a mapped list, inside the bound. -/
lemma getD_map_of_lt {α β : Type} (g : α → β) (d : β) (d0 : α) :
    ∀ (l : List α) (a : ℕ), a < l.length → (l.map g).getD a d = g (l.getD a d0)
  | [], a, h => absurd h (by simp)
  | _ :: _, 0, _ => rfl
  | _ :: xs, a + 1, h => by
    simp only [List.map_cons, List.getD_cons_succ]
    exact getD_map_of_lt g d d0 xs a (by simpa using h)

/-- A getD of a zipWith, inside both bounds. -/
lemma getD_zipWith_of_lt {α β γ : Type} (g : α → β → γ) (d : γ) (d1 : α) (d2 : β) :
    ∀ (l1 : List α) (l2 : List β) (a : ℕ), a < l1.length → a < l2.length →
      (List.zipWith g l1 l2).getD a d = g (l1.getD a d1) (l2.getD a d2)
  | [], _, a, h1, _ => absurd h1 (by simp)
  | _ :: _, [], a, _, h2 => absurd h2 (by simp)
  | _ :: _, _ :: _, 0, _, _ => rfl
  | _ :: xs, _ :: ys, a + 1, h1, h2 => by
    simp only [List.zipWith_cons_cons, List.getD_cons_succ]
    exact getD_zipWith_of_lt g d d1 d2 xs ys a (by simpa using h1) (by simpa using h2)

/-- A zipWith whose left list is no longer than the right one, written as a
map over the index range with default-valued indexing. -/
lemma zipWith_eq_range_map {α β γ : Type} (f : α → β → γ) (d1 : α) (d2 : β) :
    ∀ (l1 : List α) (l2 : List β), l1.length ≤ l2.length →
      List.zipWith f l1 l2 =
        (List.range l1.length).map (fun a => f (l1.getD a d1) (l2.getD a d2))
  | [], l2, _ => by simp
  | _ :: _, [], h => by simp at h
  | x :: xs, y :: ys, h => by
    have ih := zipWith_eq_range_map f d1 d2 xs ys (by simpa using h)
    simp only [List.zipWith_cons_cons, ih, List.length_cons, List.range_succ_eq_map,
      List.map_cons, List.map_map, List.getD_cons_zero, List.getD_cons_succ, Function.comp]
    exact congrArg _ (List.map_congr_left (fun a _ => by
      simp [Nat.succ_eq_add_one, List.getD_cons_succ]))

/-- A getD of a take, inside the taken range. -/
lemma getD_take_of_lt {α : Type} (d : α) :
    ∀ (l : List α) (n a : ℕ), a < n → (l.take n).getD a d = l.getD a d
  | [], _, _, _ => by simp
  | _ :: _, _ + 1, 0, _ => rfl
  | _ :: xs, n + 1, a + 1, h => by
    simp only [List.take_cons, List.getD_cons_succ]
    exact getD_take_of_lt d xs n a (by omega)

/-- The resolved friction list of a well-formed friction input has the
length of the joint list. -/
lemma resolveFriction_length_of_WF (fr : FrictionInput) (n : ℕ)
    (h : frictionWF fr n = true) : (resolveFriction n fr).length = n := by
  cases fr <;> simp_all [frictionWF, resolveFriction]

/-- Normal form of the planar per-joint loop when the friction-envelope
list is long enough: no error, and the mask is the elementwise combination
inDaylight AND NOT inFriction. -/
lemma planarLoop_ok (G : Geom) (pde : ℚ × ℚ × ℚ) :
    ∀ (poles : List (ℚ × ℚ)) (pfe : List (ℚ × ℚ × ℚ)), poles.length ≤ pfe.length →
      planarLoop G pde poles pfe = .ok (List.zipWith (fun jp fe =>
        line_in_cone G pde.1 pde.2.1 pde.2.2 jp.1 jp.2
          && ! line_in_cone G fe.1 fe.2.1 fe.2.2 jp.1 jp.2) poles pfe)
  | [], _, _ => rfl
  | _ :: _, [], h => by simp at h
  | (jp, jb) :: poles, (fp, fb, fa) :: pfe, h => by
    have ih := planarLoop_ok G pde poles pfe (by simpa using h)
    simp [planarLoop, ih]

/-- The planar per-joint loop raises when the friction-envelope list is
shorter than the pole list. -/
lemma planarLoop_isError (G : Geom) (pde : ℚ × ℚ × ℚ) :
    ∀ (poles : List (ℚ × ℚ)) (pfe : List (ℚ × ℚ × ℚ)), pfe.length < poles.length →
      errored (planarLoop G pde poles pfe) = true
  | [], _, h => by simp at h
  | (jp, jb) :: poles, [], _ => by simp [planarLoop, errored]
  | (jp, jb) :: poles, (fp, fb, fa) :: pfe, h => by
    have ih := planarLoop_isError G pde poles pfe (by simpa using h)
    rcases hrec : planarLoop G pde poles pfe with e | rest
    · simp [planarLoop, hrec, errored]
    · rw [hrec] at ih; simp [errored] at ih

/-- Normal form of the toppling per-joint loop when the shared strike is
present and the dip list is long enough. -/
lemma topplingLoop_ok (G : Geom) (tsl : ℚ × ℚ × ℚ) (ts : ℚ) :
    ∀ (poles : List (ℚ × ℚ)) (tds : List ℚ), poles.length ≤ tds.length →
      topplingLoop G tsl (some ts) poles tds = .ok (List.zipWith (fun jp td =>
        ! line_in_cone G tsl.1 tsl.2.1 tsl.2.2 jp.1 jp.2
          && (! line_in_cone G tsl.1 (tsl.2.1 + 180) tsl.2.2 jp.1 jp.2
          && line_above_plane G ts td jp.1 jp.2)) poles tds)
  | [], _, _ => rfl
  | _ :: _, [], h => by simp at h
  | (jp, jb) :: poles, td :: tds, h => by
    have ih := topplingLoop_ok G tsl ts poles tds (by simpa using h)
    simp [topplingLoop, ih]

/-- The toppling per-joint loop raises when the dip list is shorter than
the pole list, whatever the shared strike. -/
lemma topplingLoop_isError (G : Geom) (tsl : ℚ × ℚ × ℚ) (ts0 : Option ℚ) :
    ∀ (poles : List (ℚ × ℚ)) (tds : List ℚ), tds.length < poles.length →
      errored (topplingLoop G tsl ts0 poles tds) = true
  | [], _, h => by simp at h
  | (jp, jb) :: poles, [], _ => by simp [topplingLoop, errored]
  | (jp, jb) :: poles, td :: tds, h => by
    have ih := topplingLoop_isError G tsl ts0 poles tds (by simpa using h)
    cases ts0 with
    | none => simp [topplingLoop, errored]
    | some ts =>
      rcases hrec : topplingLoop G tsl (some ts) poles tds with e | rest
      · simp [topplingLoop, hrec, errored]
      · rw [hrec] at ih; simp [errored] at ih

/-- Strict lexicographic order on index pairs. -/
def pairLt (p q : ℕ × ℕ) : Prop :=
  p.1 < q.1 ∨ (p.1 = q.1 ∧ p.2 < q.2)

/-- Membership in the pair enumeration: exactly the pairs (i, j) with
i < j < n. -/
lemma pairComb_mem (n : ℕ) (p : ℕ × ℕ) : p ∈ pairComb n ↔ p.1 < p.2 ∧ p.2 < n := by
  rcases p with ⟨i, j⟩
  constructor
  · intro h
    rcases List.mem_flatMap.mp h with ⟨i', hi', hmem⟩
    rcases List.mem_map.mp hmem with ⟨j', hj', heq⟩
    rcases List.mem_range'_1.mp hj' with ⟨hlo, hhi⟩
    have hi'n := List.mem_range.mp hi'
    cases heq
    constructor <;> omega
  · rintro ⟨hij, hjn⟩
    refine List.mem_flatMap.mpr ⟨i, List.mem_range.mpr (by omega), ?_⟩
    exact List.mem_map.mpr ⟨j, List.mem_range'_1.mpr ⟨by omega, by omega⟩, rfl⟩

/-- Sum of a list of naturals each bumped by one. -/
lemma sum_map_add_one {α : Type} (g : α → ℕ) :
    ∀ l : List α, (l.map (fun i => g i + 1)).sum = (l.map g).sum + l.length
  | [] => rfl
  | x :: xs => by
    have ih := sum_map_add_one g xs
    simp [ih]
    omega

/-- The pair enumeration has n choose 2 elements. -/
lemma pairComb_length_choose : ∀ n : ℕ, (pairComb n).length = n.choose 2
  | 0 => rfl
  | n + 1 => by
    have ih := pairComb_length_choose n
    have hsum : ∀ m : ℕ, (pairComb m).length =
        ((List.range m).map (fun i => m - i - 1)).sum := by
      intro m
      rw [pairComb, List.length_flatMap]
      refine congrArg List.sum (List.map_congr_left fun i _ => ?_)
      simp [List.length_range']
    rw [hsum] at ih ⊢
    rw [List.range_succ]
    simp only [List.map_append, List.map_cons, List.map_nil, List.sum_append,
      List.sum_cons, List.sum_nil]
    have h1 : (List.range n).map (fun i => n + 1 - i - 1) =
        (List.range n).map (fun i => (n - i - 1) + 1) := by
      refine List.map_congr_left (fun a ha => ?_)
      have := List.mem_range.mp ha
      omega
    rw [h1, sum_map_add_one, ih, List.length_range]
    have h2 : (n + 1).choose 2 = n.choose 2 + n := by
      rw [Nat.choose_succ_succ, Nat.choose_one_right, Nat.add_comm]
    rw [h2]
    omega

/-- The pair count written as n (n - 1) / 2. -/
lemma pairComb_length (n : ℕ) : (pairComb n).length = n * (n - 1) / 2 := by
  rw [pairComb_length_choose, Nat.choose_two_right]

/-- The pair enumeration is empty exactly when fewer than two joints are
supplied. -/
lemma pairComb_isEmpty_iff (n : ℕ) : (pairComb n).isEmpty = true ↔ n < 2 := by
  rw [List.isEmpty_iff_length_eq_zero, pairComb_length_choose]
  exact Nat.choose_eq_zero_iff

/-- The pair enumeration is strictly increasing in the lexicographic
order on (i, j). -/
lemma pairComb_pairwise (n : ℕ) : (pairComb n).Pairwise pairLt := by
  unfold pairComb
  rw [List.flatMap_def, List.pairwise_flatten]
  constructor
  · intro l hl
    rcases List.mem_map.mp hl with ⟨i, _, rfl⟩
    rw [List.pairwise_map]
    refine (List.pairwise_lt_range' _ _).imp ?_
    intro j k hjk
    exact Or.inr ⟨rfl, hjk⟩
  · rw [List.pairwise_map]
    refine (List.pairwise_lt_range n).imp ?_
    intro i i' hii' x hx y hy
    rcases List.mem_map.mp hx with ⟨j, _, rfl⟩
    rcases List.mem_map.mp hy with ⟨j', _, rfl⟩
    exact Or.inl hii'

/-- Normal form of the per-pair friction minima when every pair index is
within the friction list: the elementwise minimum over the pair list. -/
lemma frictionPairs_ok (jf : List ℚ) :
    ∀ c : List (ℕ × ℕ), (∀ p ∈ c, p.1 < jf.length ∧ p.2 < jf.length) →
      frictionPairs jf c = .ok (c.map (fun p => min (jf.getD p.1 0) (jf.getD p.2 0)))
  | [], _ => rfl
  | (i, j) :: rest, h => by
    obtain ⟨hi, hj⟩ := h (i, j) (List.mem_cons_self _ _)
    have ih := frictionPairs_ok jf rest (fun p hp => h p (List.mem_cons_of_mem _ hp))
    have h1 : jf[i]? = some (jf.getD i 0) := by
      rw [List.getElem?_eq_getElem hi, List.getD_eq_getElem _ _ hi]
    have h2 : jf[j]? = some (jf.getD j 0) := by
      rw [List.getElem?_eq_getElem hj, List.getD_eq_getElem _ _ hj]
    simp only [frictionPairs]
    rw [h1, h2, ih]
    simp

/-- The per-pair friction minima raise an index error as soon as one pair
component is out of the friction list. -/
lemma frictionPairs_isError (jf : List ℚ) :
    ∀ c : List (ℕ × ℕ), (∃ p ∈ c, jf.length ≤ p.1 ∨ jf.length ≤ p.2) →
      errored (frictionPairs jf c) = true
  | [], h => by simp at h
  | (i, j) :: rest, h => by
    rcases hgi : jf[i]? with _ | fi
    · simp [frictionPairs, hgi, errored]
    rcases hgj : jf[j]? with _ | fj
    · simp [frictionPairs, hgi, hgj, errored]
    have hi : i < jf.length := by
      rcases List.getElem?_eq_some.mp hgi with ⟨hlt, _⟩; exact hlt
    have hj : j < jf.length := by
      rcases List.getElem?_eq_some.mp hgj with ⟨hlt, _⟩; exact hlt
    have hrest : ∃ p ∈ rest, jf.length ≤ p.1 ∨ jf.length ≤ p.2 := by
      rcases h with ⟨p, hp, hor⟩
      rcases List.mem_cons.mp hp with rfl | hmem
      · exfalso; rcases hor with h' | h' <;> simp at h' <;> omega
      · exact ⟨p, hmem, hor⟩
    have ih := frictionPairs_isError jf rest hrest
    rcases hrec : frictionPairs jf rest with e | fs
    · simp [frictionPairs, hgi, hgj, hrec, errored]
    · rw [hrec] at ih; simp [errored] at ih

/-- Normal form of planarFailure on well-shaped inputs (joint arrays of
equal length, resolved friction list at least as long as the joint list):
no error, and the a-th mask entry is inDaylight AND NOT inFriction for the
a-th pole, with the a-th friction cone. -/
lemma planarFailure_ok (G : Geom) (sstr sdip : ℚ) (jfr : FrictionInput) (jstr jdip : List ℚ)
    (hd : jdip.length = jstr.length)
    (hf : jstr.length ≤ (resolveFriction jstr.length jfr).length) :
    planarFailure G sstr sdip jfr jstr jdip =
      .ok ((List.range jstr.length).map (fun a =>
        line_in_cone G (G.planar_daylight sstr sdip).1 (G.planar_daylight sstr sdip).2.1
          (G.planar_daylight sstr sdip).2.2
          (G.pole2plunge_bearing (jstr.getD a 0) (jdip.getD a 0)).1
          (G.pole2plunge_bearing (jstr.getD a 0) (jdip.getD a 0)).2
        && ! line_in_cone G
          (G.planar_friction ((resolveFriction jstr.length jfr).getD a 0)).1
          (G.planar_friction ((resolveFriction jstr.length jfr).getD a 0)).2.1
          (G.planar_friction ((resolveFriction jstr.length jfr).getD a 0)).2.2
          (G.pole2plunge_bearing (jstr.getD a 0) (jdip.getD a 0)).1
          (G.pole2plunge_bearing (jstr.getD a 0) (jdip.getD a 0)).2)) := by
  have hpl : (List.zipWith G.pole2plunge_bearing jstr jdip).length = jstr.length := by
    rw [List.length_zipWith, hd, Nat.min_self]
  simp only [planarFailure, hd, ne_eq, not_true_eq_false, if_false]
  rw [planarLoop_ok _ _ _ _ (by rw [hpl, List.length_map]; exact hf),
    zipWith_eq_range_map _ ((0 : ℚ), (0 : ℚ)) ((0 : ℚ), (0 : ℚ), (0 : ℚ)) _ _
      (by rw [hpl, List.length_map]; exact hf), hpl]
  refine congrArg Except.ok (List.map_congr_left fun a ha => ?_)
  have han : a < jstr.length := List.mem_range.mp ha
  rw [getD_zipWith_of_lt G.pole2plunge_bearing ((0 : ℚ), (0 : ℚ)) 0 0 jstr jdip a han (by omega),
    getD_map_of_lt G.planar_friction ((0 : ℚ), (0 : ℚ), (0 : ℚ)) 0 _ a (by omega)]

/-- Normal form of topplingFailure on well-shaped inputs: no error, and
the a-th mask entry requires the a-th pole outside the slip-limit cone,
outside the cone with bearing offset by +180, and above the toppling
friction great circle with the shared strike and the a-th dip. -/
lemma topplingFailure_ok (G : Geom) (sstr sdip : ℚ) (jfr : FrictionInput) (jstr jdip : List ℚ)
    (hd : jdip.length = jstr.length)
    (hf : jstr.length ≤ (resolveFriction jstr.length jfr).length) :
    topplingFailure G sstr sdip jfr jstr jdip =
      .ok ((List.range jstr.length).map (fun a =>
        ! line_in_cone G (G.toppling_slipLimits sstr sdip).1
          (G.toppling_slipLimits sstr sdip).2.1 (G.toppling_slipLimits sstr sdip).2.2
          (G.pole2plunge_bearing (jstr.getD a 0) (jdip.getD a 0)).1
          (G.pole2plunge_bearing (jstr.getD a 0) (jdip.getD a 0)).2
        && (! line_in_cone G (G.toppling_slipLimits sstr sdip).1
          ((G.toppling_slipLimits sstr sdip).2.1 + 180) (G.toppling_slipLimits sstr sdip).2.2
          (G.pole2plunge_bearing (jstr.getD a 0) (jdip.getD a 0)).1
          (G.pole2plunge_bearing (jstr.getD a 0) (jdip.getD a 0)).2
        && line_above_plane G (G.toppling_friction_strike sstr sdip)
          (G.toppling_friction_dip sstr sdip ((resolveFriction jstr.length jfr).getD a 0))
          (G.pole2plunge_bearing (jstr.getD a 0) (jdip.getD a 0)).1
          (G.pole2plunge_bearing (jstr.getD a 0) (jdip.getD a 0)).2))) := by
  cases jstr with
  | nil =>
    have hnil : jdip = [] := List.length_eq_zero.mp (by simpa using hd)
    subst hnil
    simp [topplingFailure, topplingLoop]
  | cons s0 srest =>
    rcases hjf : resolveFriction (s0 :: srest).length jfr with _ | ⟨f0, frest⟩
    · rw [hjf] at hf; simp at hf
    rw [hjf] at hf
    have hpl : (List.zipWith G.pole2plunge_bearing (s0 :: srest) jdip).length =
        (s0 :: srest).length := by
      rw [List.length_zipWith, hd, Nat.min_self]
    simp only [topplingFailure, hd, ne_eq, not_true_eq_false, if_false, hjf,
      List.head?_map, List.head?_cons, Option.map_some']
    rw [topplingLoop_ok _ _ _ _ _ (by rw [hpl, List.length_map]; exact hf),
      zipWith_eq_range_map _ ((0 : ℚ), (0 : ℚ)) (0 : ℚ) _ _
        (by rw [hpl, List.length_map]; exact hf), hpl]
    refine congrArg Except.ok (List.map_congr_left fun a ha => ?_)
    have han : a < (s0 :: srest).length := List.mem_range.mp ha
    rw [getD_zipWith_of_lt G.pole2plunge_bearing ((0 : ℚ), (0 : ℚ)) 0 0 (s0 :: srest) jdip a han
        (by simp at hd han ⊢; omega),
      getD_map_of_lt (G.toppling_friction_dip sstr sdip) (0 : ℚ) 0 (f0 :: frest) a
        (by simp at han hf ⊢; omega)]

/-- Normal form of wedgeFailure on well-shaped inputs with at least two
joints: no error, and the mask maps, in lexicographic pair order, each
pair to the verdict of its intersection line against the shared wedge
daylight plane and the friction cone of the pair minimum friction. -/
lemma wedgeFailure_ok (G : Geom) (sstr sdip : ℚ) (jfr : FrictionInput) (jstr jdip : List ℚ)
    (hd : jdip.length = jstr.length) (h2 : 2 ≤ jstr.length)
    (hf : jstr.length ≤ (resolveFriction jstr.length jfr).length) :
    wedgeFailure G sstr sdip jfr jstr jdip =
      .ok ((pairComb jstr.length).map (fun p =>
        wedgePair G (G.wedge_daylight sstr sdip)
          (G.plane_intersection (jstr.getD p.1 0) (jdip.getD p.1 0)
            (jstr.getD p.2 0) (jdip.getD p.2 0))
          (G.wedge_friction (min ((resolveFriction jstr.length jfr).getD p.1 0)
            ((resolveFriction jstr.length jfr).getD p.2 0))))) := by
  have hne : (pairComb jstr.length).isEmpty = false := by
    rw [Bool.eq_false_iff]
    intro hc
    have := (pairComb_isEmpty_iff jstr.length).mp hc
    omega
  have hfp := frictionPairs_ok (resolveFriction jstr.length jfr) (pairComb jstr.length)
    (fun p hp => by
      rcases (pairComb_mem _ _).mp hp with ⟨ha, hb⟩
      constructor <;> omega)
  simp only [wedgeFailure, hd, ne_eq, not_true_eq_false, if_false, hne, wedgeLines]
  rw [hfp]
  simp [List.map_map, List.zipWith_map, List.zipWith_same, Function.comp]

/-- planarFailure raises an index error when the friction sequence is
shorter than the joint list. -/
lemma planarFailure_isError_of_short (G : Geom) (sstr sdip : ℚ) (l jstr jdip : List ℚ)
    (hd : jdip.length = jstr.length) (h : l.length < jstr.length) :
    errored (planarFailure G sstr sdip (.seq l) jstr jdip) = true := by
  simp only [planarFailure, hd, ne_eq, not_true_eq_false, if_false, resolveFriction]
  apply planarLoop_isError
  rw [List.length_zipWith, hd, Nat.min_self, List.length_map]
  exact h

/-- topplingFailure raises an index error when the friction sequence is
shorter than the joint list. -/
lemma topplingFailure_isError_of_short (G : Geom) (sstr sdip : ℚ) (l jstr jdip : List ℚ)
    (hd : jdip.length = jstr.length) (h : l.length < jstr.length) :
    errored (topplingFailure G sstr sdip (.seq l) jstr jdip) = true := by
  simp only [topplingFailure, hd, ne_eq, not_true_eq_false, if_false, resolveFriction]
  apply topplingLoop_isError
  rw [List.length_zipWith, hd, Nat.min_self, List.length_map]
  exact h

/-- wedgeFailure raises an index error when the friction sequence is
shorter than the joint list: for fewer than two joints the empty pair
array is mis-indexed, otherwise a pair reaches past the friction list. -/
lemma wedgeFailure_isError_of_short (G : Geom) (sstr sdip : ℚ) (l jstr jdip : List ℚ)
    (hd : jdip.length = jstr.length) (h : l.length < jstr.length) :
    errored (wedgeFailure G sstr sdip (.seq l) jstr jdip) = true := by
  by_cases h2 : jstr.length < 2
  · have hemp : (pairComb jstr.length).isEmpty = true := (pairComb_isEmpty_iff _).mpr h2
    simp [wedgeFailure, hd, hemp, errored]
  · have hne : (pairComb jstr.length).isEmpty = false := by
      rw [Bool.eq_false_iff]
      intro hc
      exact h2 ((pairComb_isEmpty_iff jstr.length).mp hc)
    have herr := frictionPairs_isError l (pairComb jstr.length)
      ⟨(jstr.length - 2, jstr.length - 1),
        (pairComb_mem _ _).mpr (by constructor <;> omega), by right; simp; omega⟩
    simp only [wedgeFailure, hd, ne_eq, not_true_eq_false, if_false, resolveFriction, hne]
    rcases hfp : frictionPairs l (pairComb jstr.length) with e | wf
    · simp [hfp, errored]
    · rw [hfp] at herr; simp [errored] at herr

/-- planarFailure with a friction sequence longer than the joint list
silently uses only its first n entries. -/
lemma planarFailure_truncates (G : Geom) (sstr sdip : ℚ) (l jstr jdip : List ℚ)
    (hd : jdip.length = jstr.length) (h : jstr.length ≤ l.length) :
    planarFailure G sstr sdip (.seq l) jstr jdip =
      planarFailure G sstr sdip (.seq (l.take jstr.length)) jstr jdip := by
  rw [planarFailure_ok _ _ _ _ _ _ hd (by simpa [resolveFriction] using h),
    planarFailure_ok _ _ _ _ _ _ hd (by simp [resolveFriction]; omega)]
  refine congrArg Except.ok (List.map_congr_left fun a ha => ?_)
  have han := List.mem_range.mp ha
  simp only [resolveFriction]
  rw [getD_take_of_lt (0 : ℚ) l jstr.length a han]

/-- topplingFailure with a friction sequence longer than the joint list
silently uses only its first n entries. -/
lemma topplingFailure_truncates (G : Geom) (sstr sdip : ℚ) (l jstr jdip : List ℚ)
    (hd : jdip.length = jstr.length) (h : jstr.length ≤ l.length) :
    topplingFailure G sstr sdip (.seq l) jstr jdip =
      topplingFailure G sstr sdip (.seq (l.take jstr.length)) jstr jdip := by
  rw [topplingFailure_ok _ _ _ _ _ _ hd (by simpa [resolveFriction] using h),
    topplingFailure_ok _ _ _ _ _ _ hd (by simp [resolveFriction]; omega)]
  refine congrArg Except.ok (List.map_congr_left fun a ha => ?_)
  have han := List.mem_range.mp ha
  simp only [resolveFriction]
  rw [getD_take_of_lt (0 : ℚ) l jstr.length a han]

/-- wedgeFailure with a friction sequence longer than the joint list
silently uses only its first n entries. -/
lemma wedgeFailure_truncates (G : Geom) (sstr sdip : ℚ) (l jstr jdip : List ℚ)
    (hd : jdip.length = jstr.length) (h : jstr.length ≤ l.length) :
    wedgeFailure G sstr sdip (.seq l) jstr jdip =
      wedgeFailure G sstr sdip (.seq (l.take jstr.length)) jstr jdip := by
  by_cases h2 : jstr.length < 2
  · have hemp : (pairComb jstr.length).isEmpty = true := (pairComb_isEmpty_iff _).mpr h2
    simp [wedgeFailure, hd, hemp]
  · rw [wedgeFailure_ok _ _ _ _ _ _ hd (by omega) (by simpa [resolveFriction] using h),
      wedgeFailure_ok _ _ _ _ _ _ hd (by omega) (by simp [resolveFriction]; omega)]
    refine congrArg Except.ok (List.map_congr_left fun p hp => ?_)
    rcases (pairComb_mem _ _).mp hp with ⟨hab, hbn⟩
    simp only [resolveFriction]
    rw [getD_take_of_lt (0 : ℚ) l jstr.length p.1 (by omega),
      getD_take_of_lt (0 : ℚ) l jstr.length p.2 (by omega)]

/-- A get? of a mapped list, inside the bound, in terms of getD. -/
lemma get?_map_of_lt {α β : Type} (f : α → β) (d : α) (l : List α) (k : ℕ)
    (h : k < l.length) : (l.map f).get? k = some (f (l.getD k d)) := by
  rw [List.get?_eq_getElem?, List.getElem?_eq_getElem (by simpa using h),
    List.getElem_map, List.getD_eq_getElem l d h]

/-- A getD into an index range, inside the bound. -/
lemma getD_range (n a : ℕ) (h : a < n) : (List.range n).getD a 0 = a := by
  rw [List.getD_eq_getElem _ _ (by simpa using h)]
  exact List.getElem_range _ _

/-- A get? of a map over an index range, inside the bound. -/
lemma get?_range_map {β : Type} (f : ℕ → β) (n a : ℕ) (h : a < n) :
    ((List.range n).map f).get? a = some (f a) := by
  rw [get?_map_of_lt f 0 _ a (by simpa using h)]
  rw [List.getD_eq_getElem _ _ (by simpa using h)]
  simp

/-- C7: for all cone parameters and test lines, line_in_cone returns true
iff the angular distance between the cone-center line and the test line is
strictly less than the cone angle; consequently a line whose distance from
the center exactly equals the cone angle is excluded, not included. -/
theorem line_in_cone_strict (G : Geom) (cp cb ca lp lb : ℚ) :
    (line_in_cone G cp cb ca lp lb = true ↔ G.angular_distance_deg cp cb lp lb < ca) ∧
    (G.angular_distance_deg cp cb lp lb = ca → line_in_cone G cp cb ca lp lb = false) := by
  constructor
  · simp [line_in_cone]
  · intro h
    simp [line_in_cone, h]

/-- Witness for C7 at a concrete geometry: with angular distance 5 and
cone angle exactly 5, the boundary line is excluded. -/
theorem line_in_cone_strict_witness :
    line_in_cone Gzero 10 20 5 30 40 = false :=
  (line_in_cone_strict Gzero 10 20 5 30 40).2 rfl

/-- C8: for every fixed cone-center line and test line, line_in_cone is
monotone in the cone angle: enlarging the cone can only turn a false
result true, never the reverse. -/
theorem line_in_cone_monotone (G : Geom) (cp cb lp lb a1 a2 : ℚ) (h12 : a1 ≤ a2)
    (h : line_in_cone G cp cb a1 lp lb = true) : line_in_cone G cp cb a2 lp lb = true := by
  simp only [line_in_cone, decide_eq_true_eq] at h ⊢
  exact lt_of_lt_of_le h h12

/-- Witness for C8 at a concrete geometry: distance 5 is inside the
angle-6 cone, hence inside the angle-7 cone. -/
theorem line_in_cone_monotone_witness :
    line_in_cone Gzero 10 20 7 30 40 = true :=
  line_in_cone_monotone Gzero 10 20 30 40 6 7 (by norm_num) (by decide)

/-- C10: the bearing-match test of line_above_plane is a plain absolute
difference with no modular wraparound: at a concrete geometry whose rake
projection lands at bearing 359.9996 while the test line has bearing
0.0005 — the same compass direction modulo 360 to within the 0.001
tolerance — and plunges less steeply than the projection, the predicate
nevertheless returns false because the raw difference exceeds 0.001. -/
theorem bearing_seam_no_wraparound :
    line_above_plane Gseam 0 0 0 (1/2000) = false ∧
    (Gseam.rake_to_line 0 0 (Gseam.azimuth2rake 0 0 (1/2000))).1 > 0 ∧
    |(Gseam.rake_to_line 0 0 (Gseam.azimuth2rake 0 0 (1/2000))).2 - 1/2000| ≥ 1/1000 ∧
    |(Gseam.rake_to_line 0 0 (Gseam.azimuth2rake 0 0 (1/2000))).2 - 360 - 1/2000| < 1/1000 := by
  refine ⟨?_, by norm_num [Gseam], by norm_num [Gseam, abs], by norm_num [Gseam, abs]⟩
  simp only [line_above_plane, Gseam, Bool.and_eq_false_iff, decide_eq_false_iff_not]
  right
  norm_num [abs]

/-- C1: for every slope orientation, every joint sequence of length N at
least 1, and every friction input (scalar, or sequence of length N),
planarFailure returns without error a boolean mask of length N in joint
order whose a-th entry is true iff the pole of joint a lies inside the
planar daylight cone of the slope and does not lie inside the planar
friction cone of joint a's own friction angle. -/
theorem planar_mask_daylight_and_not_friction (G : Geom) (sstr sdip : ℚ)
    (jfr : FrictionInput) (jstr jdip : List ℚ)
    (hd : jdip.length = jstr.length) (hn : 1 ≤ jstr.length)
    (hwf : frictionWF jfr jstr.length = true) :
    ∃ mask : List Bool, planarFailure G sstr sdip jfr jstr jdip = .ok mask ∧
      mask.length = jstr.length ∧
      ∀ a : ℕ, a < jstr.length → mask.getD a false =
        (line_in_cone G (G.planar_daylight sstr sdip).1 (G.planar_daylight sstr sdip).2.1
          (G.planar_daylight sstr sdip).2.2
          (G.pole2plunge_bearing (jstr.getD a 0) (jdip.getD a 0)).1
          (G.pole2plunge_bearing (jstr.getD a 0) (jdip.getD a 0)).2
        && ! line_in_cone G
          (G.planar_friction ((resolveFriction jstr.length jfr).getD a 0)).1
          (G.planar_friction ((resolveFriction jstr.length jfr).getD a 0)).2.1
          (G.planar_friction ((resolveFriction jstr.length jfr).getD a 0)).2.2
          (G.pole2plunge_bearing (jstr.getD a 0) (jdip.getD a 0)).1
          (G.pole2plunge_bearing (jstr.getD a 0) (jdip.getD a 0)).2) := by
  have hf : jstr.length ≤ (resolveFriction jstr.length jfr).length :=
    le_of_eq (resolveFriction_length_of_WF jfr jstr.length hwf).symm
  refine ⟨_, planarFailure_ok G sstr sdip jfr jstr jdip hd hf, by simp, ?_⟩
  intro a ha
  rw [getD_map_of_lt _ false 0 (List.range jstr.length) a (by simpa using ha),
    getD_range jstr.length a ha]

/-- Witness for C1: a concrete one-joint run with uniform friction. -/
theorem planar_mask_daylight_and_not_friction_witness :
    ([45] : List ℚ).length = ([0] : List ℚ).length ∧ 1 ≤ ([0] : List ℚ).length ∧
    frictionWF (.scalar 25) ([0] : List ℚ).length = true ∧
    (∃ mask : List Bool, planarFailure Gzero 60 70 (.scalar 25) [0] [45] = .ok mask ∧
      mask.length = ([0] : List ℚ).length ∧
      ∀ a : ℕ, a < ([0] : List ℚ).length → mask.getD a false =
        (line_in_cone Gzero (Gzero.planar_daylight 60 70).1 (Gzero.planar_daylight 60 70).2.1
          (Gzero.planar_daylight 60 70).2.2
          (Gzero.pole2plunge_bearing (([0] : List ℚ).getD a 0) (([45] : List ℚ).getD a 0)).1
          (Gzero.pole2plunge_bearing (([0] : List ℚ).getD a 0) (([45] : List ℚ).getD a 0)).2
        && ! line_in_cone Gzero
          (Gzero.planar_friction ((resolveFriction ([0] : List ℚ).length (.scalar 25)).getD a 0)).1
          (Gzero.planar_friction ((resolveFriction ([0] : List ℚ).length (.scalar 25)).getD a 0)).2.1
          (Gzero.planar_friction ((resolveFriction ([0] : List ℚ).length (.scalar 25)).getD a 0)).2.2
          (Gzero.pole2plunge_bearing (([0] : List ℚ).getD a 0) (([45] : List ℚ).getD a 0)).1
          (Gzero.pole2plunge_bearing (([0] : List ℚ).getD a 0) (([45] : List ℚ).getD a 0)).2)) :=
  ⟨rfl, by decide, rfl,
    planar_mask_daylight_and_not_friction Gzero 60 70 (.scalar 25) [0] [45] rfl (by decide) rfl⟩

/-- C2: for every slope orientation, joint sequence, and friction input,
topplingFailure returns without error a boolean mask of length N whose
a-th entry is true iff the pole of joint a lies outside the slip-limit
cone, outside the cone at the slip-limit direction with bearing offset by
+180 degrees (the offset passed to the cone predicate without
pre-normalization into the 0..360 range), and above the toppling friction
great circle whose strike is shared across joints and whose dip comes
from joint a's friction angle. -/
theorem toppling_mask_sliplimits_and_friction (G : Geom) (sstr sdip : ℚ)
    (jfr : FrictionInput) (jstr jdip : List ℚ)
    (hd : jdip.length = jstr.length) (hn : 1 ≤ jstr.length)
    (hwf : frictionWF jfr jstr.length = true) :
    ∃ mask : List Bool, topplingFailure G sstr sdip jfr jstr jdip = .ok mask ∧
      mask.length = jstr.length ∧
      ∀ a : ℕ, a < jstr.length → mask.getD a false =
        (! line_in_cone G (G.toppling_slipLimits sstr sdip).1
          (G.toppling_slipLimits sstr sdip).2.1 (G.toppling_slipLimits sstr sdip).2.2
          (G.pole2plunge_bearing (jstr.getD a 0) (jdip.getD a 0)).1
          (G.pole2plunge_bearing (jstr.getD a 0) (jdip.getD a 0)).2
        && (! line_in_cone G (G.toppling_slipLimits sstr sdip).1
          ((G.toppling_slipLimits sstr sdip).2.1 + 180) (G.toppling_slipLimits sstr sdip).2.2
          (G.pole2plunge_bearing (jstr.getD a 0) (jdip.getD a 0)).1
          (G.pole2plunge_bearing (jstr.getD a 0) (jdip.getD a 0)).2
        && line_above_plane G (G.toppling_friction_strike sstr sdip)
          (G.toppling_friction_dip sstr sdip ((resolveFriction jstr.length jfr).getD a 0))
          (G.pole2plunge_bearing (jstr.getD a 0) (jdip.getD a 0)).1
          (G.pole2plunge_bearing (jstr.getD a 0) (jdip.getD a 0)).2)) := by
  have hf : jstr.length ≤ (resolveFriction jstr.length jfr).length :=
    le_of_eq (resolveFriction_length_of_WF jfr jstr.length hwf).symm
  refine ⟨_, topplingFailure_ok G sstr sdip jfr jstr jdip hd hf, by simp, ?_⟩
  intro a ha
  rw [getD_map_of_lt _ false 0 (List.range jstr.length) a (by simpa using ha),
    getD_range jstr.length a ha]

/-- Witness for C2: a concrete one-joint run with uniform friction. -/
theorem toppling_mask_sliplimits_and_friction_witness :
    ([45] : List ℚ).length = ([0] : List ℚ).length ∧ 1 ≤ ([0] : List ℚ).length ∧
    frictionWF (.scalar 25) ([0] : List ℚ).length = true ∧
    (∃ mask : List Bool, topplingFailure Gzero 60 70 (.scalar 25) [0] [45] = .ok mask ∧
      mask.length = ([0] : List ℚ).length ∧
      ∀ a : ℕ, a < ([0] : List ℚ).length → mask.getD a false =
        (! line_in_cone Gzero (Gzero.toppling_slipLimits 60 70).1
          (Gzero.toppling_slipLimits 60 70).2.1 (Gzero.toppling_slipLimits 60 70).2.2
          (Gzero.pole2plunge_bearing (([0] : List ℚ).getD a 0) (([45] : List ℚ).getD a 0)).1
          (Gzero.pole2plunge_bearing (([0] : List ℚ).getD a 0) (([45] : List ℚ).getD a 0)).2
        && (! line_in_cone Gzero (Gzero.toppling_slipLimits 60 70).1
          ((Gzero.toppling_slipLimits 60 70).2.1 + 180) (Gzero.toppling_slipLimits 60 70).2.2
          (Gzero.pole2plunge_bearing (([0] : List ℚ).getD a 0) (([45] : List ℚ).getD a 0)).1
          (Gzero.pole2plunge_bearing (([0] : List ℚ).getD a 0) (([45] : List ℚ).getD a 0)).2
        && line_above_plane Gzero (Gzero.toppling_friction_strike 60 70)
          (Gzero.toppling_friction_dip 60 70
            ((resolveFriction ([0] : List ℚ).length (.scalar 25)).getD a 0))
          (Gzero.pole2plunge_bearing (([0] : List ℚ).getD a 0) (([45] : List ℚ).getD a 0)).1
          (Gzero.pole2plunge_bearing (([0] : List ℚ).getD a 0) (([45] : List ℚ).getD a 0)).2))) :=
  ⟨rfl, by decide, rfl,
    toppling_mask_sliplimits_and_friction Gzero 60 70 (.scalar 25) [0] [45] rfl (by decide) rfl⟩

/-- C3: for every joint pair (i, j) enumerated by wedgeFailure, the pair
mask entry is true iff the intersection line of planes i and j lies on
the convex side of the wedge daylight plane and inside the wedge friction
cone computed from the minimum of the two joints' friction angles. -/
theorem wedge_pair_daylight_and_min_friction (G : Geom) (sstr sdip : ℚ)
    (jfr : FrictionInput) (jstr jdip : List ℚ) (k i j : ℕ) (lp lb : ℚ)
    (hd : jdip.length = jstr.length) (h2 : 2 ≤ jstr.length)
    (hwf : frictionWF jfr jstr.length = true)
    (hk : k < (pairComb jstr.length).length)
    (hp : (pairComb jstr.length).getD k (0, 0) = (i, j))
    (hint : G.plane_intersection (jstr.getD i 0) (jdip.getD i 0)
      (jstr.getD j 0) (jdip.getD j 0) = some (lp, lb)) :
    maskEntry (wedgeFailure G sstr sdip jfr jstr jdip) k =
      some (line_above_plane G (G.wedge_daylight sstr sdip).1
          (G.wedge_daylight sstr sdip).2 lp lb
        && line_in_cone G
          (G.wedge_friction (min ((resolveFriction jstr.length jfr).getD i 0)
            ((resolveFriction jstr.length jfr).getD j 0))).1
          (G.wedge_friction (min ((resolveFriction jstr.length jfr).getD i 0)
            ((resolveFriction jstr.length jfr).getD j 0))).2.1
          (G.wedge_friction (min ((resolveFriction jstr.length jfr).getD i 0)
            ((resolveFriction jstr.length jfr).getD j 0))).2.2
          lp lb) := by
  have hf : jstr.length ≤ (resolveFriction jstr.length jfr).length :=
    le_of_eq (resolveFriction_length_of_WF jfr jstr.length hwf).symm
  rw [wedgeFailure_ok G sstr sdip jfr jstr jdip hd h2 hf]
  simp only [maskEntry]
  rw [get?_map_of_lt _ (0, 0) _ k hk, hp, hint]
  simp [wedgePair]

/-- Witness for C3: a concrete two-joint run; the enumerated pair is
(0, 1) and its intersection line is defined. -/
theorem wedge_pair_daylight_and_min_friction_witness :
    (([50, 60] : List ℚ).length = ([30, 40] : List ℚ).length) ∧
    (2 ≤ ([30, 40] : List ℚ).length) ∧
    frictionWF (.seq [25, 35]) ([30, 40] : List ℚ).length = true ∧
    (0 < (pairComb ([30, 40] : List ℚ).length).length) ∧
    ((pairComb ([30, 40] : List ℚ).length).getD 0 (0, 0) = (0, 1)) ∧
    (Gzero.plane_intersection (([30, 40] : List ℚ).getD 0 0) (([50, 60] : List ℚ).getD 0 0)
      (([30, 40] : List ℚ).getD 1 0) (([50, 60] : List ℚ).getD 1 0) = some (50, 30)) ∧
    maskEntry (wedgeFailure Gzero 10 20 (.seq [25, 35]) [30, 40] [50, 60]) 0 =
      some (line_above_plane Gzero (Gzero.wedge_daylight 10 20).1
          (Gzero.wedge_daylight 10 20).2 50 30
        && line_in_cone Gzero
          (Gzero.wedge_friction (min ((resolveFriction ([30, 40] : List ℚ).length
            (.seq [25, 35])).getD 0 0)
            ((resolveFriction ([30, 40] : List ℚ).length (.seq [25, 35])).getD 1 0))).1
          (Gzero.wedge_friction (min ((resolveFriction ([30, 40] : List ℚ).length
            (.seq [25, 35])).getD 0 0)
            ((resolveFriction ([30, 40] : List ℚ).length (.seq [25, 35])).getD 1 0))).2.1
          (Gzero.wedge_friction (min ((resolveFriction ([30, 40] : List ℚ).length
            (.seq [25, 35])).getD 0 0)
            ((resolveFriction ([30, 40] : List ℚ).length (.seq [25, 35])).getD 1 0))).2.2
          50 30) :=
  ⟨rfl, by decide, by decide, by decide, by decide, rfl,
    wedge_pair_daylight_and_min_friction Gzero 10 20 (.seq [25, 35]) [30, 40] [50, 60]
      0 0 1 50 30 rfl (by decide) (by decide) (by decide) (by decide) rfl⟩

/-- C4 counterexample: with one joint, wedgeFailure raises an IndexError
(the empty pair array is one-dimensional and the column indexing fails);
it does not return an empty mask, nor any mask at all. -/
theorem wedge_single_joint_raises :
    wedgeFailure Gzero 60 70 (.scalar 25) [0] [45] =
      .error "IndexError: too many indices for array" ∧
    ∀ m : List Bool, wedgeFailure Gzero 60 70 (.scalar 25) [0] [45] ≠ .ok m := by
  refine ⟨rfl, fun m h => ?_⟩
  rw [show wedgeFailure Gzero 60 70 (.scalar 25) [0] [45] =
    .error "IndexError: too many indices for array" from rfl] at h
  exact Except.noConfusion h

/-- C4 amended: for every joint input with N at least 2 and well-formed
friction, wedgeFailure returns a mask of exactly N (N - 1) / 2 entries
computed over the lexicographic enumeration of index pairs (i, j) with
i < j < N; for N below 2 it raises an IndexError instead of returning an
empty mask. -/
theorem wedge_pair_count_and_order (G : Geom) (sstr sdip : ℚ) (jfr : FrictionInput)
    (jstr jdip : List ℚ) (hd : jdip.length = jstr.length)
    (hwf : frictionWF jfr jstr.length = true) :
    (2 ≤ jstr.length → ∃ mask : List Bool,
      wedgeFailure G sstr sdip jfr jstr jdip = .ok mask ∧
      mask.length = jstr.length * (jstr.length - 1) / 2) ∧
    (jstr.length < 2 → errored (wedgeFailure G sstr sdip jfr jstr jdip) = true) ∧
    (pairComb jstr.length).Pairwise pairLt ∧
    (∀ p : ℕ × ℕ, p ∈ pairComb jstr.length ↔ p.1 < p.2 ∧ p.2 < jstr.length) := by
  refine ⟨fun h2 => ?_, fun h2 => ?_, pairComb_pairwise _, fun p => pairComb_mem _ p⟩
  · have hf : jstr.length ≤ (resolveFriction jstr.length jfr).length :=
      le_of_eq (resolveFriction_length_of_WF jfr jstr.length hwf).symm
    exact ⟨_, wedgeFailure_ok G sstr sdip jfr jstr jdip hd h2 hf,
      by simp [pairComb_length]⟩
  · have hemp : (pairComb jstr.length).isEmpty = true := (pairComb_isEmpty_iff _).mpr h2
    simp [wedgeFailure, hd, hemp, errored]

/-- Witness for C4 amended: a concrete three-joint run yields three pair
verdicts; a concrete one-joint run is covered by the counterexample
theorem and the error branch here is exercised with the same shape. -/
theorem wedge_pair_count_and_order_witness :
    (([4, 5, 6] : List ℚ).length = ([1, 2, 3] : List ℚ).length) ∧
    frictionWF (.scalar 30) ([1, 2, 3] : List ℚ).length = true ∧
    ((2 ≤ ([1, 2, 3] : List ℚ).length → ∃ mask : List Bool,
      wedgeFailure Gzero 0 0 (.scalar 30) [1, 2, 3] [4, 5, 6] = .ok mask ∧
      mask.length = ([1, 2, 3] : List ℚ).length * (([1, 2, 3] : List ℚ).length - 1) / 2) ∧
    (([1, 2, 3] : List ℚ).length < 2 →
      errored (wedgeFailure Gzero 0 0 (.scalar 30) [1, 2, 3] [4, 5, 6]) = true) ∧
    (pairComb ([1, 2, 3] : List ℚ).length).Pairwise pairLt ∧
    (∀ p : ℕ × ℕ, p ∈ pairComb ([1, 2, 3] : List ℚ).length ↔
      p.1 < p.2 ∧ p.2 < ([1, 2, 3] : List ℚ).length)) :=
  ⟨rfl, rfl, wedge_pair_count_and_order Gzero 0 0 (.scalar 30) [1, 2, 3] [4, 5, 6] rfl rfl⟩

/-- C5 counterexample: a friction sequence of length 2 supplied with a
single joint is not rejected: planarFailure returns a normal one-entry
mask, silently ignoring the extra friction value, instead of failing
fast. -/
theorem friction_length_mismatch_silent :
    planarFailure Gzero 60 70 (.seq [25, 35]) [0] [45] = .ok [false] ∧
    ([25, 35] : List ℚ).length ≠ ([0] : List ℚ).length := by
  exact ⟨rfl, by decide⟩

/-- C5 amended: when a supplied friction sequence is shorter than the
joint count, each classifier raises an index error (surfacing from the
out-of-range indexing, not from an explicit shape check); when it is
longer, each classifier silently uses only the first N friction entries
and returns normally. -/
theorem friction_length_mismatch_behavior (G : Geom) (sstr sdip : ℚ)
    (l jstr jdip : List ℚ) (hd : jdip.length = jstr.length) :
    (l.length < jstr.length →
      errored (planarFailure G sstr sdip (.seq l) jstr jdip) = true ∧
      errored (topplingFailure G sstr sdip (.seq l) jstr jdip) = true ∧
      errored (wedgeFailure G sstr sdip (.seq l) jstr jdip) = true) ∧
    (jstr.length ≤ l.length →
      planarFailure G sstr sdip (.seq l) jstr jdip =
        planarFailure G sstr sdip (.seq (l.take jstr.length)) jstr jdip ∧
      topplingFailure G sstr sdip (.seq l) jstr jdip =
        topplingFailure G sstr sdip (.seq (l.take jstr.length)) jstr jdip ∧
      wedgeFailure G sstr sdip (.seq l) jstr jdip =
        wedgeFailure G sstr sdip (.seq (l.take jstr.length)) jstr jdip) :=
  ⟨fun h => ⟨planarFailure_isError_of_short G sstr sdip l jstr jdip hd h,
    topplingFailure_isError_of_short G sstr sdip l jstr jdip hd h,
    wedgeFailure_isError_of_short G sstr sdip l jstr jdip hd h⟩,
   fun h => ⟨planarFailure_truncates G sstr sdip l jstr jdip hd h,
    topplingFailure_truncates G sstr sdip l jstr jdip hd h,
    wedgeFailure_truncates G sstr sdip l jstr jdip hd h⟩⟩

/-- Witness for C5 amended: a concrete two-joint run with a three-entry
friction sequence. -/
theorem friction_length_mismatch_behavior_witness :
    (([3, 4] : List ℚ).length = ([1, 2] : List ℚ).length) ∧
    ((([25, 35, 45] : List ℚ).length < ([1, 2] : List ℚ).length →
      errored (planarFailure Gzero 0 0 (.seq [25, 35, 45]) [1, 2] [3, 4]) = true ∧
      errored (topplingFailure Gzero 0 0 (.seq [25, 35, 45]) [1, 2] [3, 4]) = true ∧
      errored (wedgeFailure Gzero 0 0 (.seq [25, 35, 45]) [1, 2] [3, 4]) = true) ∧
    (([1, 2] : List ℚ).length ≤ ([25, 35, 45] : List ℚ).length →
      planarFailure Gzero 0 0 (.seq [25, 35, 45]) [1, 2] [3, 4] =
        planarFailure Gzero 0 0 (.seq (([25, 35, 45] : List ℚ).take ([1, 2] : List ℚ).length))
          [1, 2] [3, 4] ∧
      topplingFailure Gzero 0 0 (.seq [25, 35, 45]) [1, 2] [3, 4] =
        topplingFailure Gzero 0 0 (.seq (([25, 35, 45] : List ℚ).take ([1, 2] : List ℚ).length))
          [1, 2] [3, 4] ∧
      wedgeFailure Gzero 0 0 (.seq [25, 35, 45]) [1, 2] [3, 4] =
        wedgeFailure Gzero 0 0 (.seq (([25, 35, 45] : List ℚ).take ([1, 2] : List ℚ).length))
          [1, 2] [3, 4])) :=
  ⟨rfl, friction_length_mismatch_behavior Gzero 0 0 [25, 35, 45] [1, 2] [3, 4] rfl⟩

/-- C6 counterexample: a run in which the single pair is degenerate
(parallel planes, undefined intersection) returns exactly the same value
as a run in which the pair has a defined intersection line but simply
does not fail; the exclusion is not distinguishable from an ordinary
non-failing pair, and no companion validity mask exists in the result. -/
theorem degenerate_pair_indistinguishable :
    wedgeFailure Gdeg 10 20 (.scalar 3) [30, 40] [50, 60] = .ok [false] ∧
    wedgeFailure Gzero 10 20 (.scalar 3) [30, 40] [50, 60] = .ok [false] ∧
    Gdeg.plane_intersection 30 50 40 60 = none ∧
    Gzero.plane_intersection 30 50 40 60 = some (50, 30) :=
  ⟨rfl, rfl, rfl, rfl⟩

/-- C6 amended: for every enumerated pair whose plane intersection is
undefined (parallel planes, the NaN line), wedgeFailure reports that pair
as non-failing (false) rather than propagating the undefined value into
the verdict; no companion validity mask is returned, so the exclusion is
not distinguishable from an ordinary non-failing pair in the output. -/
theorem degenerate_pair_excluded (G : Geom) (sstr sdip : ℚ) (jfr : FrictionInput)
    (jstr jdip : List ℚ) (k i j : ℕ)
    (hd : jdip.length = jstr.length) (h2 : 2 ≤ jstr.length)
    (hwf : frictionWF jfr jstr.length = true)
    (hk : k < (pairComb jstr.length).length)
    (hp : (pairComb jstr.length).getD k (0, 0) = (i, j))
    (hint : G.plane_intersection (jstr.getD i 0) (jdip.getD i 0)
      (jstr.getD j 0) (jdip.getD j 0) = none) :
    maskEntry (wedgeFailure G sstr sdip jfr jstr jdip) k = some false := by
  have hf : jstr.length ≤ (resolveFriction jstr.length jfr).length :=
    le_of_eq (resolveFriction_length_of_WF jfr jstr.length hwf).symm
  rw [wedgeFailure_ok G sstr sdip jfr jstr jdip hd h2 hf]
  simp only [maskEntry]
  rw [get?_map_of_lt _ (0, 0) _ k hk, hp, hint]
  simp [wedgePair]

/-- Witness for C6 amended: the concrete degenerate geometry run. -/
theorem degenerate_pair_excluded_witness :
    (([50, 60] : List ℚ).length = ([30, 40] : List ℚ).length) ∧
    (2 ≤ ([30, 40] : List ℚ).length) ∧
    frictionWF (.scalar 3) ([30, 40] : List ℚ).length = true ∧
    (0 < (pairComb ([30, 40] : List ℚ).length).length) ∧
    ((pairComb ([30, 40] : List ℚ).length).getD 0 (0, 0) = (0, 1)) ∧
    (Gdeg.plane_intersection (([30, 40] : List ℚ).getD 0 0) (([50, 60] : List ℚ).getD 0 0)
      (([30, 40] : List ℚ).getD 1 0) (([50, 60] : List ℚ).getD 1 0) = none) ∧
    maskEntry (wedgeFailure Gdeg 10 20 (.scalar 3) [30, 40] [50, 60]) 0 = some false :=
  ⟨rfl, by decide, rfl, by decide, by decide, rfl,
    degenerate_pair_excluded Gdeg 10 20 (.scalar 3) [30, 40] [50, 60] 0 0 1
      rfl (by decide) rfl (by decide) (by decide) rfl⟩

/-- C9: in planarFailure and topplingFailure the a-th mask entry depends
only on the slope parameters and on joint a's own strike, dip, and
friction angle: two runs agreeing on those, whatever the other joints,
produce identical a-th entries. -/
theorem classifier_entry_elementwise (G : Geom) (sstr sdip : ℚ)
    (l1 js1 jd1 l2 js2 jd2 : List ℚ) (a : ℕ)
    (hd1 : jd1.length = js1.length) (hf1 : l1.length = js1.length)
    (hd2 : jd2.length = js2.length) (hf2 : l2.length = js2.length)
    (ha1 : a < js1.length) (ha2 : a < js2.length)
    (hs : js1.getD a 0 = js2.getD a 0) (hdip : jd1.getD a 0 = jd2.getD a 0)
    (hfr : l1.getD a 0 = l2.getD a 0) :
    maskEntry (planarFailure G sstr sdip (.seq l1) js1 jd1) a =
      maskEntry (planarFailure G sstr sdip (.seq l2) js2 jd2) a ∧
    maskEntry (topplingFailure G sstr sdip (.seq l1) js1 jd1) a =
      maskEntry (topplingFailure G sstr sdip (.seq l2) js2 jd2) a := by
  constructor
  · rw [planarFailure_ok G sstr sdip (.seq l1) js1 jd1 hd1
        (by simp [resolveFriction, hf1]),
      planarFailure_ok G sstr sdip (.seq l2) js2 jd2 hd2
        (by simp [resolveFriction, hf2])]
    simp only [maskEntry]
    rw [get?_range_map _ _ _ ha1, get?_range_map _ _ _ ha2]
    simp only [resolveFriction]
    rw [hs, hdip, hfr]
  · rw [topplingFailure_ok G sstr sdip (.seq l1) js1 jd1 hd1
        (by simp [resolveFriction, hf1]),
      topplingFailure_ok G sstr sdip (.seq l2) js2 jd2 hd2
        (by simp [resolveFriction, hf2])]
    simp only [maskEntry]
    rw [get?_range_map _ _ _ ha1, get?_range_map _ _ _ ha2]
    simp only [resolveFriction]
    rw [hs, hdip, hfr]

/-- Witness for C9: two concrete two-joint runs agreeing on joint 0 and
differing in joint 1's orientation and friction. -/
theorem classifier_entry_elementwise_witness :
    (([3, 4] : List ℚ).length = ([1, 2] : List ℚ).length) ∧
    (([5, 6] : List ℚ).length = ([1, 2] : List ℚ).length) ∧
    (([3, 9] : List ℚ).length = ([1, 9] : List ℚ).length) ∧
    (([5, 9] : List ℚ).length = ([1, 9] : List ℚ).length) ∧
    (maskEntry (planarFailure Gzero 7 8 (.seq [5, 6]) [1, 2] [3, 4]) 0 =
      maskEntry (planarFailure Gzero 7 8 (.seq [5, 9]) [1, 9] [3, 9]) 0 ∧
    maskEntry (topplingFailure Gzero 7 8 (.seq [5, 6]) [1, 2] [3, 4]) 0 =
      maskEntry (topplingFailure Gzero 7 8 (.seq [5, 9]) [1, 9] [3, 9]) 0) :=
  ⟨rfl, rfl, rfl, rfl,
    classifier_entry_elementwise Gzero 7 8 [5, 6] [1, 2] [3, 4] [5, 9] [1, 9] [3, 9] 0
      rfl rfl rfl rfl (by decide) (by decide) rfl rfl rfl⟩

end Rockinematics
